import Mathlib

/-!
Shallow embedding of `design-patterns-typescript`, covering the parts the
claims are about:

* the Decorator example (`FileDataSource`, `DataSourceDecorator`,
  `EncryptionDecorator`, `ReverseDecorator`) together with the platform
  primitives `btoa`/`atob` it calls (modelled after the WHATWG
  forgiving-base64 specification, which is what browsers and Node implement);
* the Singleton example (`Database.getInstance`);
* the Adapter example (`LibraryCSV`/`LibraryJSON` and their adapters),
  together with the fragment of the platform `JSON.stringify`/`JSON.parse`
  the example exercises.

`console.log` calls are pure diagnostics and are not modelled.
-/

deriving instance DecidableEq for Except

/-- A JavaScript value that can come out of `readData`: either a string or
`undefined` (the value of the field `data : string` of a `FileDataSource`
that was never assigned). -/
inductive JSVal where
  | undef
  | str (s : String)
deriving DecidableEq, Repr

/-- Errors thrown by the modelled code: `invalidCharacter` is the
`InvalidCharacterError` `DOMException` thrown by `btoa`/`atob`;
`typeError` is the `TypeError` thrown when a method is invoked on
`undefined` (e.g. `undefined.split`). -/
inductive JSError where
  | invalidCharacter
  | typeError
deriving DecidableEq, Repr

/-- The `ToString` coercion the WebIDL `DOMString` parameter of `atob`
performs: `undefined` becomes the string `"undefined"`. -/
def jsToString : JSVal → String
  | JSVal.undef => "undefined"
  | JSVal.str s => s

/-! ### The base64 platform primitives `btoa` / `atob` -/

/-- The base64 alphabet, in index order. -/
def b64Chars : List Char :=
  "ABCDEFGHIJKLMNOPQRSTUVWXYZabcdefghijklmnopqrstuvwxyz0123456789+/".data

/-- The character encoding a 6-bit group `n`. -/
def b64 (n : Nat) : Char := b64Chars.getD n 'A'

/-- The 6-bit group decoded from a character, `none` if the character is
outside the base64 alphabet. -/
def b64Val (c : Char) : Option Nat := List.findIdx? (fun d => d = c) b64Chars

/-- Base64 encoding of a byte sequence, three bytes at a time, with `=`
padding on the final partial group (the encoding `btoa` produces). -/
def encodeChunks : List Nat → List Char
  | [] => []
  | [b1] => [b64 (b1 / 4), b64 (b1 % 4 * 16), '=', '=']
  | [b1, b2] => [b64 (b1 / 4), b64 (b1 % 4 * 16 + b2 / 16), b64 (b2 % 16 * 4), '=']
  | b1 :: b2 :: b3 :: rest =>
      b64 (b1 / 4) :: b64 (b1 % 4 * 16 + b2 / 16) ::
      b64 (b2 % 16 * 4 + b3 / 64) :: b64 (b3 % 64) :: encodeChunks rest

/-- Byte sequence decoded from a sequence of 6-bit groups; per
forgiving-base64, a trailing group of 12 bits yields one byte (4 bits
discarded) and a trailing group of 18 bits yields two bytes (2 bits
discarded). -/
def decodeVals : List Nat → List Nat
  | v1 :: v2 :: v3 :: v4 :: rest =>
      (v1 * 4 + v2 / 16) :: (v2 % 16 * 16 + v3 / 4) :: (v3 % 4 * 64 + v4) ::
      decodeVals rest
  | [v1, v2] => [v1 * 4 + v2 / 16]
  | [v1, v2, v3] => [v1 * 4 + v2 / 16, v2 % 16 * 16 + v3 / 4]
  | _ => []

/-- Decode every character to its 6-bit group; fails if any character is
outside the base64 alphabet (forgiving-base64 step 4). -/
def b64Values : List Char → Option (List Nat)
  | [] => some []
  | c :: cs =>
      match b64Val c, b64Values cs with
      | some v, some vs => some (v :: vs)
      | _, _ => none

/-- ASCII whitespace, removed by forgiving-base64 step 1. -/
def isB64Ws (c : Char) : Bool :=
  c == '\t' || c == '\n' || c == '\x0c' || c == '\r' || c == ' '

/-- Remove one or two trailing `=` characters (forgiving-base64 step 2). -/
def dropPad (cs : List Char) : List Char :=
  if cs.getLast? = some '=' then
    if cs.dropLast.getLast? = some '=' then cs.dropLast.dropLast else cs.dropLast
  else cs

/-- The platform `btoa`: throws `InvalidCharacterError` if the argument has
a code unit above `U+00FF`, otherwise base64-encodes the code units as
bytes. -/
def btoa (s : String) : Except JSError String :=
  if s.data.any (fun c => 255 < c.toNat) then Except.error JSError.invalidCharacter
  else Except.ok (String.mk (encodeChunks (s.data.map Char.toNat)))

/-- The platform `atob`: WHATWG forgiving-base64 decode.  Strips ASCII
whitespace; if the length is a multiple of four, strips up to two trailing
`=`; fails if the remaining length is `1 mod 4` or any character is outside
the alphabet; otherwise decodes 6-bit groups to bytes, discarding leftover
bits. -/
def atob (s : String) : Except JSError String :=
  let cs := s.data.filter (fun c => !(isB64Ws c))
  let cs2 := if cs.length % 4 = 0 then dropPad cs else cs
  if cs2.length % 4 = 1 then Except.error JSError.invalidCharacter
  else
    match b64Values cs2 with
    | none => Except.error JSError.invalidCharacter
    | some vs => Except.ok (String.mk ((decodeVals vs).map Char.ofNat))

/-! ### The Decorator example

A decorator chain is a list of layers (outermost first) around one
`FileDataSource`.  Each `FileDataSource` instance has a mutable field
`data : string`, `undefined` until the first `writeData`; a `Heap` assigns
to every instance (identified by a `Nat`) the contents of that field. -/

/-- A concrete decorator class of the example: `Layer.encryption` is
`EncryptionDecorator`, `Layer.reverse` is `ReverseDecorator`, and
`Layer.plain` is the pass-through base class `DataSourceDecorator`. -/
inductive Layer where
  | encryption
  | reverse
  | plain
deriving DecidableEq, Repr

/-- The transformation a layer's `writeData` applies before delegating to
`super.writeData`:
`EncryptionDecorator.writeData` computes `btoa(data)` (which can throw);
`ReverseDecorator.writeData` computes `data.split("").reverse().join("")`;
`DataSourceDecorator.writeData` passes the data through unchanged. -/
def layerEncode : Layer → String → Except JSError String
  | Layer.encryption, data => btoa data
  | Layer.reverse, data => Except.ok (String.mk data.data.reverse)
  | Layer.plain, data => Except.ok data

/-- The transformation a layer's `readData` applies to the result of
`super.readData()`:
`EncryptionDecorator.readData` computes `atob(...)` (with the WebIDL
`ToString` coercion, so `undefined` becomes `"undefined"`);
`ReverseDecorator.readData` computes `.split("").reverse().join("")`,
which throws `TypeError` on `undefined`;
`DataSourceDecorator.readData` returns the inner result unchanged. -/
def layerDecode : Layer → JSVal → Except JSError JSVal
  | Layer.encryption, v => (atob (jsToString v)).map JSVal.str
  | Layer.reverse, JSVal.str s => Except.ok (JSVal.str (String.mk s.data.reverse))
  | Layer.reverse, JSVal.undef => Except.error JSError.typeError
  | Layer.plain, v => Except.ok v

/-- Assignment of the `data` field to every `FileDataSource` instance
(`none` = the field was never written, i.e. `undefined`). -/
def Heap : Type := Nat → Option String

/-- All stores freshly constructed: no `writeData` has happened anywhere. -/
def heap0 : Heap := fun _ => none

/-- `FileDataSource.writeData` on instance `sid`: overwrite its `data`
field. -/
def Heap.update (h : Heap) (sid : Nat) (v : String) : Heap :=
  fun j => if j = sid then some v else h j

/-- A heap holding exactly one written store, instance `0` with value `t`. -/
def heapOne (t : String) : Heap := Heap.update heap0 0 t

/-- `writeData data` called on the outermost layer of the chain `L` around
`FileDataSource` instance `sid`: each layer applies its forward transform
and delegates inward; `FileDataSource.writeData` stores the final value.
A thrown error aborts the call before the inner components run. -/
def writeStack : List Layer → Nat → String → Heap → Except JSError Heap
  | [], sid, data, h => Except.ok (Heap.update h sid data)
  | l :: ls, sid, data, h =>
      match layerEncode l data with
      | Except.error e => Except.error e
      | Except.ok d => writeStack ls sid d h

/-- `readData()` called on the outermost layer of the chain `L` around
`FileDataSource` instance `sid`: the call reaches
`FileDataSource.readData` (which returns the `data` field, `undefined` if
never written), and each layer applies its inverse transform on the way
out.  A thrown error propagates unchanged. -/
def readStack : List Layer → Nat → Heap → Except JSError JSVal
  | [], sid, h =>
      Except.ok (match h sid with
        | some s => JSVal.str s
        | none => JSVal.undef)
  | l :: ls, sid, h =>
      match readStack ls sid h with
      | Except.error e => Except.error e
      | Except.ok v => layerDecode l v

/-- `writeData(v)` followed by `readData()` on the same outermost layer;
if the write throws, the heap is unchanged and the read still runs on it. -/
def writeThenRead (L : List Layer) (sid : Nat) (v : String) (h : Heap) :
    Except JSError JSVal :=
  match writeStack L sid v h with
  | Except.error _ => readStack L sid h
  | Except.ok h2 => readStack L sid h2

/-! ### Round-trip of the base64 primitives -/

lemma b64_mem (n : Nat) : b64 n ∈ b64Chars := by
  unfold b64
  rw [List.getD_eq_getElem?_getD]
  rcases h : b64Chars[n]? with _ | c
  · decide
  · exact List.getElem?_mem h

lemma mem_b64Chars_not_ws : ∀ c ∈ b64Chars, isB64Ws c = false := by decide

lemma mem_b64Chars_ne_pad : ∀ c ∈ b64Chars, c ≠ '=' := by decide

lemma mem_b64Chars_le255 : ∀ c ∈ b64Chars, c.toNat ≤ 255 := by decide

lemma b64Val_b64 : ∀ n < 64, b64Val (b64 n) = some n := by decide

lemma encodeChunks_length (bs : List Nat) : (encodeChunks bs).length % 4 = 0 := by
  induction bs using encodeChunks.induct with
  | case1 => simp [encodeChunks]
  | case2 b1 => simp [encodeChunks]
  | case3 b1 b2 => simp [encodeChunks]
  | case4 b1 b2 b3 rest ih => simp only [encodeChunks, List.length_cons]; omega

lemma encodeChunks_length_ge (bs : List Nat) (h : bs ≠ []) :
    4 ≤ (encodeChunks bs).length := by
  rcases bs with _ | ⟨b1, _ | ⟨b2, _ | ⟨b3, rest⟩⟩⟩
  · exact absurd rfl h
  · simp [encodeChunks]
  · simp [encodeChunks]
  · simp [encodeChunks]

lemma encodeChunks_mem (bs : List Nat) :
    ∀ c ∈ encodeChunks bs, c ∈ b64Chars ∨ c = '=' := by
  induction bs using encodeChunks.induct with
  | case1 => intro c hc; cases hc
  | case2 b1 =>
      intro c hc
      simp only [encodeChunks, List.mem_cons, List.not_mem_nil, or_false] at hc
      rcases hc with rfl | rfl | rfl | rfl
      · exact Or.inl (b64_mem _)
      · exact Or.inl (b64_mem _)
      · exact Or.inr rfl
      · exact Or.inr rfl
  | case3 b1 b2 =>
      intro c hc
      simp only [encodeChunks, List.mem_cons, List.not_mem_nil, or_false] at hc
      rcases hc with rfl | rfl | rfl | rfl
      · exact Or.inl (b64_mem _)
      · exact Or.inl (b64_mem _)
      · exact Or.inl (b64_mem _)
      · exact Or.inr rfl
  | case4 b1 b2 b3 rest ih =>
      intro c hc
      simp only [encodeChunks, List.mem_cons] at hc
      rcases hc with rfl | rfl | rfl | rfl | hc
      · exact Or.inl (b64_mem _)
      · exact Or.inl (b64_mem _)
      · exact Or.inl (b64_mem _)
      · exact Or.inl (b64_mem _)
      · exact ih c hc

lemma dropPad_nopad (xs : List Char) (hx : xs.getLast? ≠ some '=') :
    dropPad xs = xs := by
  unfold dropPad
  rw [if_neg hx]

lemma dropPad_pad2 (xs : List Char) : dropPad (xs ++ ['=', '=']) = xs := by
  have h1 : (xs ++ ['=', '=']).getLast? = some '=' := by
    rw [List.getLast?_append_of_ne_nil _ (by simp)]; decide
  have h2 : (xs ++ ['=', '=']).dropLast = xs ++ ['='] := by
    rw [List.dropLast_append_of_ne_nil _ (by simp)]; rfl
  have h3 : (xs ++ ['=']).getLast? = some '=' := by
    rw [List.getLast?_append_of_ne_nil _ (by simp)]; decide
  have h4 : (xs ++ ['=']).dropLast = xs := by
    rw [List.dropLast_append_of_ne_nil _ (by simp)]; simp
  unfold dropPad
  rw [h1, if_pos rfl, h2, h3, if_pos rfl, h4]

lemma dropPad_pad1 (xs : List Char) (hx : xs.getLast? ≠ some '=') :
    dropPad (xs ++ ['=']) = xs := by
  have h1 : (xs ++ ['=']).getLast? = some '=' := by
    rw [List.getLast?_append_of_ne_nil _ (by simp)]; decide
  have h4 : (xs ++ ['=']).dropLast = xs := by
    rw [List.dropLast_append_of_ne_nil _ (by simp)]; simp
  unfold dropPad
  rw [h1, if_pos rfl, h4, if_neg hx]

lemma dropPad_append (xs ys : List Char) (h : 2 ≤ ys.length) :
    dropPad (xs ++ ys) = xs ++ dropPad ys := by
  have hne : ys ≠ [] := by
    intro hy; subst hy; simp at h
  have hne1 : ys.dropLast ≠ [] := by
    intro hy
    have := congrArg List.length hy
    simp [List.length_dropLast] at this
    omega
  unfold dropPad
  rw [List.getLast?_append_of_ne_nil _ hne]
  by_cases h1 : ys.getLast? = some '='
  · rw [if_pos h1, if_pos h1, List.dropLast_append_of_ne_nil _ hne,
        List.getLast?_append_of_ne_nil _ hne1]
    by_cases h2 : ys.dropLast.getLast? = some '='
    · rw [if_pos h2, if_pos h2, List.dropLast_append_of_ne_nil _ hne1]
    · rw [if_neg h2, if_neg h2]
  · rw [if_neg h1, if_neg h1]

lemma b64Values_cons (c : Char) (cs : List Char) (v : Nat) (vs : List Nat)
    (hc : b64Val c = some v) (hcs : b64Values cs = some vs) :
    b64Values (c :: cs) = some (v :: vs) := by
  simp [b64Values, hc, hcs]

lemma decode_encodeChunks (bs : List Nat) (h : ∀ b ∈ bs, b < 256) :
    ∃ vs, b64Values (dropPad (encodeChunks bs)) = some vs ∧ decodeVals vs = bs := by
  induction bs using encodeChunks.induct with
  | case1 => exact ⟨[], by decide, rfl⟩
  | case2 b1 =>
      have hb1 : b1 < 256 := h b1 (by simp)
      have e1 : b64Val (b64 (b1 / 4)) = some (b1 / 4) := b64Val_b64 _ (by omega)
      have e2 : b64Val (b64 (b1 % 4 * 16)) = some (b1 % 4 * 16) :=
        b64Val_b64 _ (by omega)
      have ha1 : b1 / 4 * 4 + b1 % 4 * 16 / 16 = b1 := by omega
      refine ⟨[b1 / 4, b1 % 4 * 16], ?_, ?_⟩
      · have he : encodeChunks [b1] =
            [b64 (b1 / 4), b64 (b1 % 4 * 16)] ++ ['=', '='] := rfl
        rw [he, dropPad_pad2]
        exact b64Values_cons _ _ _ _ e1 (b64Values_cons _ _ _ _ e2 rfl)
      · simp only [decodeVals]
        rw [ha1]
  | case3 b1 b2 =>
      have hb1 : b1 < 256 := h b1 (by simp)
      have hb2 : b2 < 256 := h b2 (by simp)
      have e1 : b64Val (b64 (b1 / 4)) = some (b1 / 4) := b64Val_b64 _ (by omega)
      have e2 : b64Val (b64 (b1 % 4 * 16 + b2 / 16)) = some (b1 % 4 * 16 + b2 / 16) :=
        b64Val_b64 _ (by omega)
      have e3 : b64Val (b64 (b2 % 16 * 4)) = some (b2 % 16 * 4) :=
        b64Val_b64 _ (by omega)
      have ha1 : b1 / 4 * 4 + (b1 % 4 * 16 + b2 / 16) / 16 = b1 := by omega
      have ha2 : (b1 % 4 * 16 + b2 / 16) % 16 * 16 + b2 % 16 * 4 / 4 = b2 := by omega
      refine ⟨[b1 / 4, b1 % 4 * 16 + b2 / 16, b2 % 16 * 4], ?_, ?_⟩
      · have he : encodeChunks [b1, b2] =
            [b64 (b1 / 4), b64 (b1 % 4 * 16 + b2 / 16), b64 (b2 % 16 * 4)] ++ ['='] :=
          rfl
        have hlast : ([b64 (b1 / 4), b64 (b1 % 4 * 16 + b2 / 16),
            b64 (b2 % 16 * 4)] : List Char).getLast? ≠ some '=' := by
          simp only [List.getLast?_cons_cons, List.getLast?_singleton]
          intro hcontra
          exact mem_b64Chars_ne_pad _ (b64_mem _) (Option.some.inj hcontra)
        rw [he, dropPad_pad1 _ hlast]
        exact b64Values_cons _ _ _ _ e1
          (b64Values_cons _ _ _ _ e2 (b64Values_cons _ _ _ _ e3 rfl))
      · simp only [decodeVals]
        rw [ha1, ha2]
  | case4 b1 b2 b3 rest ih =>
      have hb1 : b1 < 256 := h b1 (by simp)
      have hb2 : b2 < 256 := h b2 (by simp)
      have hb3 : b3 < 256 := h b3 (by simp)
      have hrest : ∀ b ∈ rest, b < 256 := fun b hb => h b (by simp [hb])
      obtain ⟨vs, hvs, hdec⟩ := ih hrest
      have e1 : b64Val (b64 (b1 / 4)) = some (b1 / 4) := b64Val_b64 _ (by omega)
      have e2 : b64Val (b64 (b1 % 4 * 16 + b2 / 16)) = some (b1 % 4 * 16 + b2 / 16) :=
        b64Val_b64 _ (by omega)
      have e3 : b64Val (b64 (b2 % 16 * 4 + b3 / 64)) = some (b2 % 16 * 4 + b3 / 64) :=
        b64Val_b64 _ (by omega)
      have e4 : b64Val (b64 (b3 % 64)) = some (b3 % 64) := b64Val_b64 _ (by omega)
      have ha1 : b1 / 4 * 4 + (b1 % 4 * 16 + b2 / 16) / 16 = b1 := by omega
      have ha2 : (b1 % 4 * 16 + b2 / 16) % 16 * 16 + (b2 % 16 * 4 + b3 / 64) / 4 = b2 := by
        omega
      have ha3 : (b2 % 16 * 4 + b3 / 64) % 4 * 64 + b3 % 64 = b3 := by omega
      have he : encodeChunks (b1 :: b2 :: b3 :: rest) =
          [b64 (b1 / 4), b64 (b1 % 4 * 16 + b2 / 16), b64 (b2 % 16 * 4 + b3 / 64),
           b64 (b3 % 64)] ++ encodeChunks rest := rfl
      refine ⟨b1 / 4 :: (b1 % 4 * 16 + b2 / 16) :: (b2 % 16 * 4 + b3 / 64) ::
        b3 % 64 :: vs, ?_, ?_⟩
      · rcases eq_or_ne rest [] with hr | hr
        · subst hr
          have hvnil : vs = [] := by
            have hz : b64Values (dropPad (encodeChunks ([] : List Nat))) = some [] := by
              decide
            rw [hz] at hvs
            exact (Option.some.inj hvs).symm
          subst hvnil
          have hlast : ([b64 (b1 / 4), b64 (b1 % 4 * 16 + b2 / 16),
              b64 (b2 % 16 * 4 + b3 / 64), b64 (b3 % 64)] : List Char).getLast? ≠
              some '=' := by
            simp only [List.getLast?_cons_cons, List.getLast?_singleton]
            intro hcontra
            exact mem_b64Chars_ne_pad _ (b64_mem _) (Option.some.inj hcontra)
          rw [he, show encodeChunks ([] : List Nat) = [] from rfl, List.append_nil,
            dropPad_nopad _ hlast]
          exact b64Values_cons _ _ _ _ e1 (b64Values_cons _ _ _ _ e2
            (b64Values_cons _ _ _ _ e3 (b64Values_cons _ _ _ _ e4 rfl)))
        · have hlen : 2 ≤ (encodeChunks rest).length := by
            have := encodeChunks_length_ge rest hr
            omega
          rw [he, dropPad_append _ _ hlen]
          simp only [List.cons_append, List.nil_append]
          exact b64Values_cons _ _ _ _ e1 (b64Values_cons _ _ _ _ e2
            (b64Values_cons _ _ _ _ e3 (b64Values_cons _ _ _ _ e4 hvs)))
      · simp only [decodeVals]
        rw [ha1, ha2, ha3, hdec]

lemma dropPad_length (cs : List Char) :
    cs.length - 2 ≤ (dropPad cs).length ∧ (dropPad cs).length ≤ cs.length := by
  unfold dropPad
  by_cases h1 : cs.getLast? = some '='
  · rw [if_pos h1]
    by_cases h2 : cs.dropLast.getLast? = some '='
    · rw [if_pos h2]
      simp only [List.length_dropLast]
      omega
    · rw [if_neg h2]
      simp only [List.length_dropLast]
      omega
  · rw [if_neg h1]
    omega

lemma encodeChunks_filter (bs : List Nat) :
    (encodeChunks bs).filter (fun c => !(isB64Ws c)) = encodeChunks bs := by
  apply List.filter_eq_self.mpr
  intro a ha
  rcases encodeChunks_mem bs a ha with hmem | rfl
  · simp [mem_b64Chars_not_ws a hmem]
  · decide

lemma btoa_ok (s : String) (hs : ∀ c ∈ s.data, c.toNat ≤ 255) :
    btoa s = Except.ok (String.mk (encodeChunks (s.data.map Char.toNat))) := by
  unfold btoa
  rw [if_neg]
  simp only [List.any_eq_true, decide_eq_true_eq, not_exists, not_and]
  intro c hc
  have := hs c hc
  omega

theorem atob_btoa (s t : String) (hs : ∀ c ∈ s.data, c.toNat ≤ 255)
    (h : btoa s = Except.ok t) : atob t = Except.ok s := by
  have hbytes : ∀ b ∈ s.data.map Char.toNat, b < 256 := by
    intro b hb
    simp only [List.mem_map] at hb
    obtain ⟨c, hc, rfl⟩ := hb
    have := hs c hc
    omega
  rw [btoa_ok s hs] at h
  have ht : t = String.mk (encodeChunks (s.data.map Char.toNat)) :=
    (Except.ok.inj h).symm
  subst ht
  obtain ⟨vs, hvs, hdec⟩ := decode_encodeChunks (s.data.map Char.toNat) hbytes
  have hlenmod : (encodeChunks (s.data.map Char.toNat)).length % 4 = 0 :=
    encodeChunks_length _
  have hlen1 : ¬ (dropPad (encodeChunks (s.data.map Char.toNat))).length % 4 = 1 := by
    have hb := dropPad_length (encodeChunks (s.data.map Char.toNat))
    omega
  simp only [atob]
  rw [encodeChunks_filter, if_pos hlenmod, if_neg hlen1, hvs]
  simp only []
  rw [hdec]
  exact congrArg Except.ok (String.ext
    (by simp [List.map_map, Function.comp_def, Char.ofNat_toNat]))

/-! ### Round-trip through decorator stacks -/

lemma layerEncode_roundtrip (l : Layer) (v : String)
    (hv : ∀ c ∈ v.data, c.toNat ≤ 255) :
    ∃ d, layerEncode l v = Except.ok d ∧ (∀ c ∈ d.data, c.toNat ≤ 255) ∧
      layerDecode l (JSVal.str d) = Except.ok (JSVal.str v) := by
  cases l with
  | encryption =>
      refine ⟨String.mk (encodeChunks (v.data.map Char.toNat)), ?_, ?_, ?_⟩
      · exact btoa_ok v hv
      · intro c hc
        rcases encodeChunks_mem _ c hc with hmem | rfl
        · exact mem_b64Chars_le255 c hmem
        · decide
      · show (atob (jsToString (JSVal.str (String.mk
          (encodeChunks (v.data.map Char.toNat)))))).map JSVal.str =
          Except.ok (JSVal.str v)
        rw [show jsToString (JSVal.str (String.mk
          (encodeChunks (v.data.map Char.toNat)))) = String.mk
          (encodeChunks (v.data.map Char.toNat)) from rfl]
        rw [atob_btoa v _ hv (btoa_ok v hv)]
        rfl
  | reverse =>
      refine ⟨String.mk v.data.reverse, rfl, ?_, ?_⟩
      · intro c hc
        rw [show (String.mk v.data.reverse).data = v.data.reverse from rfl,
          List.mem_reverse] at hc
        exact hv c hc
      · show Except.ok (JSVal.str (String.mk
          (String.mk v.data.reverse).data.reverse)) = Except.ok (JSVal.str v)
        rw [show (String.mk v.data.reverse).data = v.data.reverse from rfl,
          List.reverse_reverse]
  | plain => exact ⟨v, rfl, hv, rfl⟩

lemma layerEncode_roundtrip_noenc (l : Layer) (hl : l ≠ Layer.encryption)
    (v : String) :
    ∃ d, layerEncode l v = Except.ok d ∧
      layerDecode l (JSVal.str d) = Except.ok (JSVal.str v) := by
  cases l with
  | encryption => exact absurd rfl hl
  | reverse =>
      refine ⟨String.mk v.data.reverse, rfl, ?_⟩
      show Except.ok (JSVal.str (String.mk
        (String.mk v.data.reverse).data.reverse)) = Except.ok (JSVal.str v)
      rw [show (String.mk v.data.reverse).data = v.data.reverse from rfl,
        List.reverse_reverse]
  | plain => exact ⟨v, rfl, rfl⟩

lemma stack_roundtrip_latin1 (L : List Layer) (sid : Nat) (v : String) (h : Heap)
    (hv : ∀ c ∈ v.data, c.toNat ≤ 255) :
    ∃ h2, writeStack L sid v h = Except.ok h2 ∧
      readStack L sid h2 = Except.ok (JSVal.str v) := by
  induction L generalizing v with
  | nil =>
      refine ⟨Heap.update h sid v, rfl, ?_⟩
      simp [readStack, Heap.update]
  | cons l ls ih =>
      obtain ⟨d, hd, hd255, hdec⟩ := layerEncode_roundtrip l v hv
      obtain ⟨h2, hw, hr⟩ := ih d hd255
      refine ⟨h2, ?_, ?_⟩
      · simp [writeStack, hd, hw]
      · simp [readStack, hr, hdec]

lemma stack_roundtrip_noenc (L : List Layer) (hL : Layer.encryption ∉ L)
    (sid : Nat) (v : String) (h : Heap) :
    ∃ h2, writeStack L sid v h = Except.ok h2 ∧
      readStack L sid h2 = Except.ok (JSVal.str v) := by
  induction L generalizing v with
  | nil =>
      refine ⟨Heap.update h sid v, rfl, ?_⟩
      simp [readStack, Heap.update]
  | cons l ls ih =>
      have hl : l ≠ Layer.encryption := fun hc => hL (hc ▸ List.mem_cons_self l ls)
      have hls : Layer.encryption ∉ ls := fun hc => hL (List.mem_cons_of_mem l hc)
      obtain ⟨d, hd, hdec⟩ := layerEncode_roundtrip_noenc l hl v
      obtain ⟨h2, hw, hr⟩ := (fun v => ih hls v) d
      refine ⟨h2, ?_, ?_⟩
      · simp [writeStack, hd, hw]
      · simp [readStack, hr, hdec]

/-! ### Frame lemmas for the heap -/

lemma writeStack_frame (L : List Layer) (sid j : Nat) (v : String) (h h2 : Heap)
    (hj : j ≠ sid) (hw : writeStack L sid v h = Except.ok h2) : h2 j = h j := by
  induction L generalizing v with
  | nil =>
      have : Heap.update h sid v = h2 := by
        simpa [writeStack] using hw
      subst this
      simp [Heap.update, hj]
  | cons l ls ih =>
      cases hd : layerEncode l v with
      | error e => simp [writeStack, hd] at hw
      | ok d =>
          simp only [writeStack, hd] at hw
          exact ih d hw

lemma readStack_congr (L : List Layer) (sid : Nat) (h h2 : Heap)
    (hs : h sid = h2 sid) : readStack L sid h = readStack L sid h2 := by
  induction L with
  | nil => simp [readStack, hs]
  | cons l ls ih => simp [readStack, ih]

/-! ### The Singleton example

`Database` has a private static field `instance`, unset at class-load time,
and `getInstance` assigns it on first call.  Object identity is modelled by
numbering allocations: `inst` is the static field (`none` = unset) and
`nextId` feeds `new Database()`. -/

/-- Static state of the `Database` class: the `instance` field and the
allocation counter modelling object identity of `new Database()`. -/
structure DatabaseState where
  inst : Option Nat
  nextId : Nat
deriving DecidableEq, Repr

/-- The class-load state: `Database.instance` is unset. -/
def initialDatabase : DatabaseState := ⟨none, 0⟩

/-- `Database.getInstance()`: if `Database.instance` is unset, allocate a
`new Database()` and store it; return `Database.instance`. -/
def Database.getInstance : DatabaseState → DatabaseState × Nat
  | s =>
    match s.inst with
    | none => (⟨some s.nextId, s.nextId + 1⟩, s.nextId)
    | some i => (s, i)

/-! ### The Adapter example

`LibraryCSV`/`LibraryJSON` produce a CSV resp. JSON string for the same
three books; the adapters decode them back to `{title, author}` records.
`JSON.stringify`/`JSON.parse` are platform builtins; they are modelled on
the JSON fragment the example exercises: strings (without escape
sequences — the book data contains none), arrays, objects, booleans and
`null`; numbers and `\u` escapes are not modelled. -/

/-- A `{title, author}` record. -/
structure Book where
  title : String
  author : String
deriving DecidableEq, Repr

/-- `Array.prototype.join(sep)`: empty array gives `""`, otherwise the
elements interleaved with the separator. -/
def joinSep (sep : String) : List String → String
  | [] => ""
  | [x] => x
  | x :: y :: xs => x ++ sep ++ joinSep sep (y :: xs)

/-- Fuel-driven scan for `String.prototype.split` with a non-empty string
separator: at each position, either the separator is a prefix (cut there
and skip it) or the character joins the current piece. -/
def splitGo (sep : List Char) : Nat → List Char → List (List Char)
  | 0, _ => [[]]
  | _ + 1, [] => [[]]
  | fuel + 1, c :: rest =>
      if sep.isPrefixOf (c :: rest) then
        [] :: splitGo sep fuel ((c :: rest).drop sep.length)
      else
        match splitGo sep fuel rest with
        | [] => [[c]]
        | g :: gs => (c :: g) :: gs

/-- `String.prototype.split(sep)` for a non-empty string separator. -/
def jsSplit (s : String) (sep : String) : List String :=
  (splitGo sep.data (s.data.length + 1) s.data).map String.mk

/-- `LibraryCSV.getBooks()`: header line plus one `title,author` line per
book, joined with `\r\n`. -/
def LibraryCSV.getBooks : String :=
  "title,author\r\n" ++ joinSep "\r\n"
    (([⟨"Book 1", "Author 1"⟩, ⟨"Book 2", "Author 2"⟩,
       ⟨"Book 3", "Author 3"⟩] : List Book).map
      (fun book => book.title ++ "," ++ book.author))

/-- `LibraryCSVAdapter.getBooks()`: split on `\r\n`, drop the header with
`slice(1)`, split each line on `,` and build the record from fields 0
and 1.  (The out-of-range default of `getD` is never reached on this
data, where JavaScript would yield `undefined`.) -/
def LibraryCSVAdapter.getBooks : List Book :=
  let books := LibraryCSV.getBooks
  let booksArray := jsSplit books "\r\n"
  let booksData := booksArray.drop 1
  booksData.map (fun book =>
    let bookData := jsSplit book ","
    ⟨bookData.getD 0 "", bookData.getD 1 ""⟩)

/-- JSON values (the fragment the example exercises). -/
inductive Json where
  | str (s : String)
  | arr (items : List Json)
  | obj (members : List (String × Json))
  | bool (b : Bool)
  | null

/-- `JSON.stringify` restricted to an array of `{title, author}` records
whose strings need no escaping (true of the book data): key order is
insertion order, `title` then `author`. -/
def jsonStringifyBooks (books : List Book) : String :=
  "[" ++ joinSep ","
    (books.map (fun b =>
      "\x7b\"title\":\"" ++ b.title ++ "\",\"author\":\"" ++ b.author ++
        "\"\x7d")) ++ "]"

/-- `LibraryJSON.getBooks()`: `JSON.stringify` of the same three books. -/
def LibraryJSON.getBooks : String :=
  jsonStringifyBooks [⟨"Book 1", "Author 1"⟩, ⟨"Book 2", "Author 2"⟩,
    ⟨"Book 3", "Author 3"⟩]

/-- JSON insignificant whitespace. -/
def isJsonWs (c : Char) : Bool :=
  c == ' ' || c == '\t' || c == '\n' || c == '\r'

/-- Body of a JSON string after the opening quote: returns the decoded
characters and the input after the closing quote.  Escapes `\"`, `\\`,
`\/`, `\b`, `\f`, `\n`, `\r`, `\t` are handled; `\u` is not modelled. -/
def parseStringBody : List Char → Option (List Char × List Char)
  | [] => none
  | '\\' :: '"' :: rest => (parseStringBody rest).map (fun p => ('"' :: p.1, p.2))
  | '\\' :: '\\' :: rest => (parseStringBody rest).map (fun p => ('\\' :: p.1, p.2))
  | '\\' :: '/' :: rest => (parseStringBody rest).map (fun p => ('/' :: p.1, p.2))
  | '\\' :: 'b' :: rest => (parseStringBody rest).map (fun p => ('\x08' :: p.1, p.2))
  | '\\' :: 'f' :: rest => (parseStringBody rest).map (fun p => ('\x0c' :: p.1, p.2))
  | '\\' :: 'n' :: rest => (parseStringBody rest).map (fun p => ('\n' :: p.1, p.2))
  | '\\' :: 'r' :: rest => (parseStringBody rest).map (fun p => ('\r' :: p.1, p.2))
  | '\\' :: 't' :: rest => (parseStringBody rest).map (fun p => ('\t' :: p.1, p.2))
  | '\\' :: _ => none
  | '"' :: rest => some ([], rest)
  | c :: rest => (parseStringBody rest).map (fun p => (c :: p.1, p.2))

mutual

/-- Parse one JSON value (fuel-bounded recursive descent). -/
def parseValue : Nat → List Char → Option (Json × List Char)
  | 0, _ => none
  | fuel + 1, cs =>
      match cs.dropWhile isJsonWs with
      | '"' :: rest =>
          (parseStringBody rest).map (fun p => (Json.str (String.mk p.1), p.2))
      | '[' :: rest =>
          match rest.dropWhile isJsonWs with
          | ']' :: rest2 => some (Json.arr [], rest2)
          | _ =>
              match parseElems fuel rest with
              | none => none
              | some (vs, rest2) => some (Json.arr vs, rest2)
      | '\x7b' :: rest =>
          match rest.dropWhile isJsonWs with
          | '\x7d' :: rest2 => some (Json.obj [], rest2)
          | _ =>
              match parseMembers fuel rest with
              | none => none
              | some (ms, rest2) => some (Json.obj ms, rest2)
      | 't' :: 'r' :: 'u' :: 'e' :: rest => some (Json.bool true, rest)
      | 'f' :: 'a' :: 'l' :: 's' :: 'e' :: rest => some (Json.bool false, rest)
      | 'n' :: 'u' :: 'l' :: 'l' :: rest => some (Json.null, rest)
      | _ => none

/-- Parse the elements of a non-empty JSON array, up to and including the
closing bracket. -/
def parseElems : Nat → List Char → Option (List Json × List Char)
  | 0, _ => none
  | fuel + 1, cs =>
      match parseValue fuel cs with
      | none => none
      | some (v, rest) =>
          match rest.dropWhile isJsonWs with
          | ',' :: rest2 =>
              match parseElems fuel rest2 with
              | none => none
              | some (vs, rest3) => some (v :: vs, rest3)
          | ']' :: rest2 => some ([v], rest2)
          | _ => none

/-- Parse the members of a non-empty JSON object, up to and including the
closing brace. -/
def parseMembers : Nat → List Char → Option (List (String × Json) × List Char)
  | 0, _ => none
  | fuel + 1, cs =>
      match cs.dropWhile isJsonWs with
      | '"' :: rest =>
          match parseStringBody rest with
          | none => none
          | some (key, rest2) =>
              match rest2.dropWhile isJsonWs with
              | ':' :: rest3 =>
                  match parseValue fuel rest3 with
                  | none => none
                  | some (v, rest4) =>
                      match rest4.dropWhile isJsonWs with
                      | ',' :: rest5 =>
                          match parseMembers fuel rest5 with
                          | none => none
                          | some (ms, rest6) =>
                              some ((String.mk key, v) :: ms, rest6)
                      | '\x7d' :: rest5 => some ([(String.mk key, v)], rest5)
                      | _ => none
              | _ => none
      | _ => none

end

/-- `JSON.parse`: parse one value and require only whitespace to follow. -/
def jsonParse (s : String) : Option Json :=
  match parseValue (s.length + 1) s.data with
  | none => none
  | some (v, rest) => if rest.dropWhile isJsonWs = [] then some v else none

/-- `LibraryJSONAdapter.getBooks()`: `JSON.parse` of the JSON library's
output (`none` models a thrown `SyntaxError`). -/
def LibraryJSONAdapter.getBooks : Option Json := jsonParse LibraryJSON.getBooks

/-- Read a `{title, author}` record back out of a parsed JSON object (the
shape `JSON.parse` returns for one book). -/
def jsonBook? : Json → Option Book
  | Json.obj [(k1, Json.str t), (k2, Json.str a)] =>
      if k1 = "title" ∧ k2 = "author" then some ⟨t, a⟩ else none
  | _ => none

/-- Read the list of records out of a parsed JSON array of books. -/
def jsonToBooks : Json → Option (List Book)
  | Json.arr items => items.mapM jsonBook?
  | _ => none

lemma btoa_ok_length (s t : String) (h : btoa s = Except.ok t) :
    t.length % 4 = 0 := by
  unfold btoa at h
  split at h
  · simp at h
  · have := Except.ok.inj h
    subst this
    exact encodeChunks_length _

/-! ### The claims -/

/-- C1, as stated, is false: the round-trip is claimed for every text value
and every stack, but `EncryptionDecorator.writeData` throws on `"π"`
(code point `U+03C0 > U+00FF`), so writing `"π"` through an
`EncryptionDecorator` fails and the subsequent read does not return
`"π"`. -/
theorem claim_C1_counterexample :
    writeStack [Layer.encryption] 0 "π" heap0 =
      Except.error JSError.invalidCharacter ∧
    readStack [Layer.encryption] 0 heap0 ≠ Except.ok (JSVal.str "π") := by
  exact ⟨rfl, by decide⟩

/-- C1 (amended): for every text value `v` and every stack of decorators,
if either every character of `v` has code point at most `U+00FF` (so every
`btoa` in the stack succeeds) or the stack contains no
`EncryptionDecorator`, then `writeData(v)` followed by `readData()` on the
outermost layer returns a value equal to `v`. -/
theorem claim_C1_roundtrip (L : List Layer) (sid : Nat) (v : String) (h : Heap)
    (hv : (∀ c ∈ v.data, c.toNat ≤ 255) ∨ Layer.encryption ∉ L) :
    writeThenRead L sid v h = Except.ok (JSVal.str v) := by
  rcases hv with hv | hL
  · obtain ⟨h2, hw, hr⟩ := stack_roundtrip_latin1 L sid v h hv
    simp [writeThenRead, hw, hr]
  · obtain ⟨h2, hw, hr⟩ := stack_roundtrip_noenc L hL sid v h
    simp [writeThenRead, hw, hr]

/-- Witness for C1 (amended) at the stack `EncryptionDecorator` over
`ReverseDecorator` and the value `"Hello world!"`. -/
theorem claim_C1_roundtrip_witness :
    writeThenRead [Layer.encryption, Layer.reverse] 0 "Hello world!" heap0 =
      Except.ok (JSVal.str "Hello world!") :=
  claim_C1_roundtrip [Layer.encryption, Layer.reverse] 0 "Hello world!" heap0
    (Or.inl (by decide))

/-- C2, as stated, is false: `readData()` on a freshly constructed
`FileDataSource` does not throw; it returns normally with the value
`undefined` (the field `data : string` was never assigned). -/
theorem claim_C2_counterexample :
    readStack [] 0 heap0 = Except.ok JSVal.undef := by decide

/-- C2 (amended): `readData()` on a `FileDataSource` that was never written
returns the JavaScript value `undefined` rather than a string; it does not
fail with a NotInitialized error. -/
theorem claim_C2_fresh_read (sid : Nat) (h : Heap) (hs : h sid = none) :
    readStack [] sid h = Except.ok JSVal.undef := by
  simp [readStack, hs]

/-- Witness for C2 (amended) on a fresh heap. -/
theorem claim_C2_fresh_read_witness :
    readStack [] 1 heap0 = Except.ok JSVal.undef :=
  claim_C2_fresh_read 1 heap0 rfl

/-- C3, as stated, is false: the inner value `"AB"` is not produced by
`btoa` on any input (every `btoa` output has length divisible by four),
yet `EncryptionDecorator.readData` over a store holding `"AB"` succeeds,
because the forgiving-base64 `atob` accepts `"AB"` (it decodes to the
single byte `0`). -/
theorem claim_C3_counterexample :
    ∃ t : String, (∀ s, btoa s ≠ Except.ok t) ∧
      ∃ v, readStack [Layer.encryption] 0 (heapOne t) = Except.ok v := by
  refine ⟨"AB", ?_, JSVal.str (String.mk [Char.ofNat 0]), by decide⟩
  intro s hcontra
  have hmod := btoa_ok_length s "AB" hcontra
  have hlen : ("AB" : String).length % 4 = 2 := by decide
  omega

/-- C3 (amended): `EncryptionDecorator.readData` fails with the decode
error exactly where `atob` rejects the inner value; in particular it
fails whenever the stored value is not syntactically valid
forgiving-base64, e.g. the raw text `"not-valid-encoding!"`.  (Some
values outside the image of `writeData`'s encoding are still accepted.) -/
theorem claim_C3_decode_error (t : String) (sid : Nat) (h : Heap)
    (hs : h sid = some t)
    (ha : atob t = Except.error JSError.invalidCharacter) :
    readStack [Layer.encryption] sid h =
      Except.error JSError.invalidCharacter := by
  simp [readStack, hs, layerDecode, jsToString, ha, Except.map]

/-- Witness for C3 (amended) at the raw inner text `"not-valid-encoding!"`. -/
theorem claim_C3_decode_error_witness :
    readStack [Layer.encryption] 0 (heapOne "not-valid-encoding!") =
      Except.error JSError.invalidCharacter :=
  claim_C3_decode_error "not-valid-encoding!" 0 (heapOne "not-valid-encoding!")
    rfl (by decide)

/-- C4: the `ReverseDecorator` transform is total and self-inverse: for
every string `v` the write-path reversal succeeds with some `w`, applying
the write-path reversal to `w` gives back `v`, and the read-path reversal
of `w` gives back `v`; neither path has a failure mode on strings. -/
theorem claim_C4_reverse_involutive (v : String) :
    ∃ w, layerEncode Layer.reverse v = Except.ok w ∧
      layerEncode Layer.reverse w = Except.ok v ∧
      layerDecode Layer.reverse (JSVal.str w) = Except.ok (JSVal.str v) := by
  refine ⟨String.mk v.data.reverse, rfl, ?_, ?_⟩
  · show Except.ok (String.mk (String.mk v.data.reverse).data.reverse) =
      Except.ok v
    rw [show (String.mk v.data.reverse).data = v.data.reverse from rfl,
      List.reverse_reverse]
  · show Except.ok (JSVal.str (String.mk
      (String.mk v.data.reverse).data.reverse)) = Except.ok (JSVal.str v)
    rw [show (String.mk v.data.reverse).data = v.data.reverse from rfl,
      List.reverse_reverse]

/-- C5: on the stack `ReverseDecorator(EncryptionDecorator(ReverseDecorator(
FileDataSource)))`, `writeData("Hello world!")` followed by `readData()`
returns exactly `"Hello world!"`. -/
theorem claim_C5_demo_roundtrip :
    writeThenRead [Layer.reverse, Layer.encryption, Layer.reverse] 0
      "Hello world!" heap0 = Except.ok (JSVal.str "Hello world!") := by decide

/-- C6: every wrapper layer propagates an inner failure unchanged: if the
inner chain's `readData` throws `e`, the wrapped `readData` throws the
same `e`; and if the layer's own forward transform succeeds but the inner
chain's `writeData` throws `e`, the wrapped `writeData` throws the same
`e` — no swallowing, no substitution, no retry. -/
theorem claim_C6_error_propagation (l : Layer) (ls : List Layer) (sid : Nat)
    (h : Heap) (e : JSError) :
    (readStack ls sid h = Except.error e →
      readStack (l :: ls) sid h = Except.error e) ∧
    (∀ data d : String, layerEncode l data = Except.ok d →
      writeStack ls sid d h = Except.error e →
      writeStack (l :: ls) sid data h = Except.error e) := by
  constructor
  · intro hr
    simp [readStack, hr]
  · intro data d hd hw
    simp [writeStack, hd, hw]

/-- Witness for C6: a `ReverseDecorator` wrapped around an
`EncryptionDecorator` whose read fails (fresh store, so `atob` throws) and
whose write fails (`btoa("π")` throws). -/
theorem claim_C6_error_propagation_witness :
    readStack [Layer.reverse, Layer.encryption] 0 heap0 =
      Except.error JSError.invalidCharacter ∧
    writeStack [Layer.reverse, Layer.encryption] 0 "π" heap0 =
      Except.error JSError.invalidCharacter :=
  ⟨(claim_C6_error_propagation Layer.reverse [Layer.encryption] 0 heap0
      JSError.invalidCharacter).1 (by decide),
   (claim_C6_error_propagation Layer.reverse [Layer.encryption] 0 heap0
      JSError.invalidCharacter).2 "π" "π" (by decide) rfl⟩

/-- C7: store isolation: a successful `writeData` through a stack rooted at
instance `sid1` leaves the `data` field of any other instance `sid2`
unchanged, and any read through a stack rooted at `sid2` observes
exactly what it observed before the write. -/
theorem claim_C7_store_isolation (L1 L2 : List Layer) (sid1 sid2 : Nat)
    (v : String) (h h2 : Heap) (hne : sid1 ≠ sid2)
    (hw : writeStack L1 sid1 v h = Except.ok h2) :
    h2 sid2 = h sid2 ∧ readStack L2 sid2 h2 = readStack L2 sid2 h := by
  have hframe := writeStack_frame L1 sid1 sid2 v h h2 (Ne.symm hne) hw
  exact ⟨hframe, readStack_congr L2 sid2 h2 h hframe⟩

/-- Witness for C7: writing `"a"` to instance `0` does not change what a
read of instance `1` returns. -/
theorem claim_C7_store_isolation_witness :
    Heap.update heap0 0 "a" 1 = heap0 1 ∧
    readStack [] 1 (Heap.update heap0 0 "a") = readStack [] 1 heap0 :=
  claim_C7_store_isolation [] [] 0 1 "a" heap0 (Heap.update heap0 0 "a")
    (by decide) rfl

/-- C8: `EncryptionDecorator.writeData` is not total: for any value with a
character above `U+00FF`, `btoa` throws, the write fails with
`InvalidCharacterError`, and the value never reaches the inner
component (no heap is produced). -/
theorem claim_C8_btoa_not_total (v : String)
    (hv : ∃ c ∈ v.data, 255 < c.toNat) (ls : List Layer) (sid : Nat)
    (h : Heap) :
    writeStack (Layer.encryption :: ls) sid v h =
      Except.error JSError.invalidCharacter := by
  have hb : btoa v = Except.error JSError.invalidCharacter := by
    unfold btoa
    rw [if_pos]
    simp only [List.any_eq_true, decide_eq_true_eq]
    exact hv
  simp [writeStack, layerEncode, hb]

/-- Witness for C8 at `"π"`. -/
theorem claim_C8_btoa_not_total_witness :
    writeStack [Layer.encryption] 0 "π" heap0 =
      Except.error JSError.invalidCharacter :=
  claim_C8_btoa_not_total "π" ⟨'π', by decide, by decide⟩ [] 0 heap0

/-- C9: `Database.getInstance` is lazily idempotent: from the class-load
state the first call allocates the single instance; every call returns
the stored instance and leaves the state unchanged afterwards; once the
`instance` field is set it is never replaced. -/
theorem claim_C9_singleton :
    Database.getInstance initialDatabase = (⟨some 0, 1⟩, 0) ∧
    (∀ (s s2 : DatabaseState) (i : Nat), Database.getInstance s = (s2, i) →
      s2.inst = some i ∧ Database.getInstance s2 = (s2, i)) ∧
    (∀ (s : DatabaseState) (i : Nat), s.inst = some i →
      Database.getInstance s = (s, i)) := by
  refine ⟨rfl, ?_, ?_⟩
  · intro s s2 i hcall
    cases hs : s.inst with
    | none =>
        simp only [Database.getInstance, hs, Prod.mk.injEq] at hcall
        obtain ⟨rfl, rfl⟩ := hcall
        exact ⟨rfl, by simp [Database.getInstance]⟩
    | some j =>
        simp only [Database.getInstance, hs, Prod.mk.injEq] at hcall
        obtain ⟨rfl, rfl⟩ := hcall
        exact ⟨hs, by simp [Database.getInstance, hs]⟩
  · intro s i hs
    simp [Database.getInstance, hs]

/-- Witness for C9: the instance allocated by the first call is returned,
unchanged, by the second call, and a state with the field already set is
never replaced. -/
theorem claim_C9_singleton_witness :
    ((⟨some 0, 1⟩ : DatabaseState).inst = some 0 ∧
      Database.getInstance ⟨some 0, 1⟩ = (⟨some 0, 1⟩, 0)) ∧
    Database.getInstance ⟨some 5, 7⟩ = (⟨some 5, 7⟩, 5) :=
  ⟨claim_C9_singleton.2.1 initialDatabase ⟨some 0, 1⟩ 0 (by decide),
   claim_C9_singleton.2.2 ⟨some 5, 7⟩ 5 rfl⟩

/-- C10: the two adapter pipelines are observationally equivalent:
`JSON.parse` of `LibraryJSON.getBooks()` succeeds and holds exactly the
records `LibraryCSVAdapter.getBooks()` produces — the same three
`{title, author}` records in the same order. -/
theorem claim_C10_adapter_equiv :
    LibraryJSONAdapter.getBooks.bind jsonToBooks =
      some LibraryCSVAdapter.getBooks ∧
    LibraryCSVAdapter.getBooks =
      [⟨"Book 1", "Author 1"⟩, ⟨"Book 2", "Author 2"⟩,
       ⟨"Book 3", "Author 3"⟩] := by
  exact ⟨by decide, by decide⟩
